import Mathlib

/-
Verification development for the iscsitarget module (modules/iscsitarget.py).

The module edits a line oriented daemon configuration file, parses the kernel
volume table, and invokes external commands.  The embedding below renders the
pure string and list manipulation directly, and models the stateful public
operations as functions from an explicit world state (daemon status, volume
table lines, configuration file lines, exit codes of external commands, the
set of existing logical volumes) to a result value, a new world state, and the
trace of state changing external commands that were invoked.
-/

/-- Characters removed by the Python str.lstrip call used throughout the
config editor. -/
def dropLeadingWs : List Char → List Char
  | [] => []
  | c :: cs => if c.isWhitespace then dropLeadingWs cs else c :: cs

/-- Boolean list prefix test; models Python str.startswith at the character
level. -/
def isPrefixB : List Char → List Char → Bool
  | [], _ => true
  | _ :: _, [] => false
  | p :: ps, c :: cs => p == c && isPrefixB ps cs

/-- Boolean substring test; models the Python membership test pat in s at the
character level. -/
def hasSub (pat : List Char) : List Char → Bool
  | [] => isPrefixB pat []
  | c :: cs => isPrefixB pat (c :: cs) || hasSub pat cs

/-- The Python expression pat in s, on strings. -/
def pyIn (pat s : String) : Bool := hasSub pat.toList s.toList

/-- The Python expression s.lstrip().startswith(pat). -/
def lstripStarts (s pat : String) : Bool := isPrefixB pat.toList (dropLeadingWs s.toList)

/-- Line test from iscsitarget.py lines 151, 219, 254: the line, after
lstrip, starts with the word Target. -/
def isTargetLine (s : String) : Bool := lstripStarts s "Target"

/-- Line test from iscsitarget.py lines 225, 260: the line, after lstrip,
starts with the word Lun. -/
def isLunLine (s : String) : Bool := lstripStarts s "Lun"

/-- The deletion loop of _config_delete_target after the matched Target line
itself has been deleted: lines are deleted until the next Target line or the
end of the file (iscsitarget.py lines 157 to 161). -/
def dropUntilTarget : List String → List String
  | [] => []
  | x :: xs => if isTargetLine x then x :: xs else dropUntilTarget xs

/-- In memory edit performed by _config_delete_target (iscsitarget.py lines
145 to 163): find the first Target line whose text contains fiqn, delete it
and every following line up to the next Target line or end of file; when no
Target line matches, the lines are rewritten unchanged. -/
def config_delete_target (fiqn : String) : List String → List String
  | [] => []
  | x :: xs =>
    if isTargetLine x && pyIn fiqn x then dropUntilTarget xs
    else x :: config_delete_target fiqn xs

/-- The loop of _config_delete_lun over the lines following the matched Target
line (iscsitarget.py lines 259 to 264): while the current line is a Lun line,
delete it when its text contains the pattern, otherwise step over it; the
first non Lun line (or the end of the file) stops the loop. -/
def delLunLoop (pat : String) : List String → List String
  | [] => []
  | x :: xs =>
    if isLunLine x then
      if pyIn pat x then delLunLoop pat xs else x :: delLunLoop pat xs
    else x :: xs

/-- In memory edit performed by _config_delete_lun (iscsitarget.py lines 248
to 266): find the first Target line whose text contains fiqn and run the Lun
deletion loop on the lines after it, matching each Lun line against the
substring Lun n exactly as the Python format call builds it; when no Target
line matches, the lines are rewritten unchanged. -/
def config_delete_lun (fiqn : String) (lun : Nat) : List String → List String
  | [] => []
  | x :: xs =>
    if isTargetLine x && pyIn fiqn x then x :: delLunLoop ("Lun " ++ toString lun) xs
    else x :: config_delete_lun fiqn lun xs

/-- The new Lun line built by _config_add_lun (iscsitarget.py line 215). -/
def lunLine (lun : Nat) (vg name iotype : String) : String :=
  "\tLun " ++ toString lun ++ " PATH=/dev/" ++ vg ++ "/" ++ name ++ ",Type=" ++ iotype ++ "\n"

/-- The insertion walk of _config_add_lun after the matched Target line
(iscsitarget.py lines 224 to 227): step over the contiguous Lun lines and
insert the new line right after the last of them. -/
def insertLun (nlun : String) : List String → List String
  | [] => [nlun]
  | x :: xs => if isLunLine x then x :: insertLun nlun xs else nlun :: x :: xs

/-- In memory edit performed by _config_add_lun (iscsitarget.py lines 210 to
232): when a Target line contains fiqn, insert the new Lun line after the last
Lun line of that block; otherwise append a Target line without a tid and the
new Lun line at the end of the file (lines 229 to 230). -/
def config_add_lun (fiqn : String) (lun : Nat) (vg name iotype : String) : List String → List String
  | [] => ["Target " ++ fiqn ++ "\n", lunLine lun vg name iotype]
  | x :: xs =>
    if isTargetLine x && pyIn fiqn x then x :: insertLun (lunLine lun vg name iotype) xs
    else x :: config_add_lun fiqn lun vg name iotype xs

/-- The line written by _config_add_target (iscsitarget.py line 142). -/
def targetLine (tid : Int) (fiqn : String) : String :=
  "Target " ++ toString tid ++ " " ++ fiqn ++ "\n"

/-- Edit performed by _config_add_target (iscsitarget.py lines 137 to 142):
append one Target line, carrying the tid, at the end of the file. -/
def config_add_target (tid : Int) (fiqn : String) (clines : List String) : List String :=
  clines ++ [targetLine tid fiqn]

/-- One block of a well formed configuration file: a Target line followed by
the Lun lines nested under it. -/
structure Block where
  header : String
  luns : List String

/-- The lines of one block. -/
def Block.render (b : Block) : List String := b.header :: b.luns

/-- The lines of a whole configuration file given as a list of blocks. -/
def renderConfig (bs : List Block) : List String := (bs.map Block.render).flatten

/-- Well formedness of one block: the header passes the Target line test and
every nested line passes the Lun line test. -/
def WFBlock (b : Block) : Prop :=
  isTargetLine b.header = true ∧ ∀ l ∈ b.luns, isLunLine l = true

/-- Well formedness of a configuration file: every block is well formed. -/
def WFConfig (bs : List Block) : Prop := ∀ b ∈ bs, WFBlock b

/-- Python str.split with a single character separator: empty pieces are
kept, and the result is never empty. -/
def splitOnChar (sep : Char) : List Char → List (List Char)
  | [] => [[]]
  | c :: cs =>
    match splitOnChar sep cs with
    | [] => [[c]]
    | g :: gs => if c == sep then [] :: g :: gs else (c :: g) :: gs

/-- Value of a decimal digit character. -/
def digitVal (c : Char) : Option Nat :=
  if '0' ≤ c ∧ c ≤ '9' then some (c.toNat - '0'.toNat) else none

/-- Accumulator loop reading a run of decimal digits. -/
def parseNatAux : List Char → Nat → Option Nat
  | [], acc => some acc
  | c :: cs, acc =>
    match digitVal c with
    | none => none
    | some d => parseNatAux cs (acc * 10 + d)

/-- The Python int constructor on the token shapes this module feeds it: an
optional minus sign followed by at least one decimal digit; any other shape
raises ValueError, modelled as none. -/
def pyInt (s : String) : Option Int :=
  match s.toList with
  | [] => none
  | ['-'] => none
  | '-' :: c :: cs => (parseNatAux (c :: cs) 0).map (fun n => -(n : Int))
  | c :: cs => (parseNatAux (c :: cs) 0).map (fun n => (n : Int))

/-- The Python expression int(x.split(' ')[0].split(':')[-1]) used on volume
table lines (iscsitarget.py lines 58 and 79). -/
def parseTid (x : String) : Option Int :=
  pyInt (String.mk ((splitOnChar ':' ((splitOnChar ' ' x.toList).headD [])).getLastD []))

/-- The lines of the volume table selected by the membership test tid: in x
(iscsitarget.py line 58). -/
def tidTokenLines (lines : List String) : List String :=
  lines.filter (fun x => pyIn "tid:" x)

/-- Pure core of _get_new_tid (iscsitarget.py lines 52 to 67) over the lines
of /proc/net/iet/volume: parse the tid of every line containing tid:, return
the maximum plus one, or 1 when no line carries a tid; none models the
ValueError raised when some selected line does not parse. -/
def get_new_tid (lines : List String) : Option Int :=
  match (tidTokenLines lines).mapM parseTid with
  | none => none
  | some [] => some 1
  | some (t :: ts) => some (ts.foldl max t + 1)

/-- Pure core of _get_tid_from_iqn (iscsitarget.py lines 70 to 84): scan the
volume table for the first line containing the iqn and parse its tid; the
result is 0 when no line matches, and none models the ValueError raised when
the matched line does not parse. -/
def get_tid_from_iqn (iqn : String) (lines : List String) : Option Int :=
  match lines.find? (fun x => pyIn iqn x) with
  | none => some 0
  | some x => parseTid x

/-- Fuel driven splitter modelling Python str.split(sep) with a non empty
separator string; the fuel is the input length, enough for a full scan. -/
def splitOnStrAux (sep : List Char) : Nat → List Char → List (List Char)
  | _, [] => [[]]
  | 0, s => [s]
  | n + 1, c :: cs =>
    if isPrefixB sep (c :: cs) then
      [] :: splitOnStrAux sep n ((c :: cs).drop sep.length)
    else
      match splitOnStrAux sep n cs with
      | [] => [[c]]
      | g :: gs => (c :: g) :: gs

/-- Python str.split(sep) on strings, for a non empty separator. -/
def pySplitStr (sep s : String) : List String :=
  if sep.toList.isEmpty then [s]
  else (splitOnStrAux sep.toList s.toList.length s.toList).map (fun g => String.mk g)

/-- Characters removed by Python str.rstrip. -/
def dropTrailingWs (l : List Char) : List Char := (dropLeadingWs l.reverse).reverse

/-- Python x.rstrip(). -/
def pyRstrip (s : String) : String := String.mk (dropTrailingWs s.toList)

/-- Pure core of _get_volumes (iscsitarget.py lines 87 to 101) over the full
text of the volume table: the path fields of the lines nested under the block
of the given iqn, or the empty list when the iqn does not occur. -/
def get_volumes (iqn : String) (text : String) : List String :=
  if pyIn iqn text = false then []
  else
    let config0 := (pySplitStr iqn text).getLastD ""
    let config1 := (pySplitStr "tid:" config0).headD ""
    let config2 := ((pySplitStr "\n" config1).drop 1).dropLast
    config2.map (fun x => pyRstrip ((pySplitStr "path:" x).getLastD ""))

/-- Return values of the public operations, as Python value shapes: a string,
a one element tuple holding a string (produced by a return statement with a
trailing comma), a pair of strings, a boolean, or a propagated exception. -/
inductive PyVal where
  | pstr : String → PyVal
  | tup1 : String → PyVal
  | pair : String → String → PyVal
  | pbool : Bool → PyVal
  | raised : PyVal
deriving DecidableEq

/-- True exactly on the string shape. -/
def PyVal.isStr : PyVal → Bool
  | PyVal.pstr _ => true
  | _ => false

/-- External state the module interacts with: whether the pgrep check for the
ietd daemon succeeds, the lines of /proc/net/iet/volume, the lines of the
configuration file, the exit code each state changing external command would
return, and the set of existing logical volume paths. -/
structure World where
  ietdRunning : Bool
  procVolume : List String
  configLines : List String
  cmdResults : String → Nat
  lvs : List String

/-- Result of one public operation: the returned value, the world after the
operation, and the trace of state changing external commands invoked through
cmd.retcode (the pgrep status query of _is_ietd_running is a read of the
process table, modelled by the ietdRunning field, and is not a state changing
command). -/
structure OpResult where
  ret : PyVal
  world : World
  cmds : List String

/-- The command string built by add_target (iscsitarget.py line 303). -/
def addTargetCmd (tid : Int) (fiqn : String) : String :=
  "ietadm --op new --tid " ++ toString tid ++ " --params Name=" ++ fiqn

/-- The command string built by delete_target (iscsitarget.py line 347). -/
def deleteTargetCmd (tid : Int) : String :=
  "ietadm --op delete --tid " ++ toString tid

/-- The command string built by _create_vol (iscsitarget.py line 173). -/
def createVolCmd (name size vg : String) : String :=
  "lvcreate -n " ++ name ++ " " ++ vg ++ " -L " ++ size

/-- The command string built by _delete_vol (iscsitarget.py line 186). -/
def deleteVolCmd (name vg : String) : String :=
  "lvremove -f /dev/" ++ vg ++ "/" ++ name

/-- The command string built by _add_lun (iscsitarget.py line 200). -/
def addLunCmd (tid : Int) (lun : Nat) (path iotype : String) : String :=
  "ietadm --op new --tid " ++ toString tid ++ " --lun " ++ toString lun ++
    " --params Path=" ++ path ++ ",Type=" ++ iotype

/-- The command string built by _delete_lun (iscsitarget.py line 240). -/
def deleteLunCmd (tid : Int) (lun : Nat) : String :=
  "ietadm --op delete --tid " ++ toString tid ++ " --lun " ++ toString lun

/-- The daemon down error text shared by all four public operations. -/
def ietdDownMsg : String := "Error: (ietd) ietd not active"

/-- The target not found error text of delete_target, add_lun and delete_lun. -/
def notFoundMsg (fiqn : String) : String :=
  "Error: (proc/net/iet/volume) " ++ fiqn ++ " not found"

/-- Public operation add_target (iscsitarget.py lines 269 to 311).  The
configuration parameters resolved by _get_params are passed explicitly; the
volume group and the opt list are unused by the source.  When the daemon is
down the source returns the error string followed by a comma, a one element
tuple.  Otherwise it allocates a tid from the volume table, invokes ietadm,
and on exit code zero appends the Target line to the configuration file. -/
def add_target (w : World) (iqn_base name : String) : OpResult :=
  if w.ietdRunning = false then ⟨PyVal.tup1 ietdDownMsg, w, []⟩
  else
    let fiqn := iqn_base ++ ":" ++ name
    match get_new_tid w.procVolume with
    | none => ⟨PyVal.raised, w, []⟩
    | some tid =>
      let cmd := addTargetCmd tid fiqn
      let out := w.cmdResults cmd
      if out ≠ 0 then
        ⟨PyVal.pstr ("Error: ietadm(" ++ toString out ++ ") Could not create iSCSI Target " ++ fiqn),
          w, [cmd]⟩
      else
        ⟨PyVal.pair name fiqn,
          { w with configLines := config_add_target tid fiqn w.configLines }, [cmd]⟩

/-- Public operation delete_target (iscsitarget.py lines 314 to 355).  When
the daemon is down the source returns the error string itself (no trailing
comma).  Otherwise it resolves the tid from the volume table (0 meaning not
found), computes and discards the list of attached volume paths, invokes
ietadm, and on exit code zero removes the target block from the configuration
file.  No volume command is built anywhere in this path. -/
def delete_target (w : World) (iqn_base name vg : String) : OpResult :=
  if w.ietdRunning = false then ⟨PyVal.pstr ietdDownMsg, w, []⟩
  else
    let fiqn := iqn_base ++ ":" ++ name
    let _path := "/dev/" ++ vg ++ "/" ++ name
    match get_tid_from_iqn fiqn w.procVolume with
    | none => ⟨PyVal.raised, w, []⟩
    | some tid =>
      if tid = 0 then ⟨PyVal.pstr (notFoundMsg fiqn), w, []⟩
      else
        let _vols := get_volumes fiqn (String.join w.procVolume)
        let cmd := deleteTargetCmd tid
        let out := w.cmdResults cmd
        if out ≠ 0 then
          ⟨PyVal.pstr ("Error: ietadm(" ++ toString out ++ ") Could not delete target " ++ fiqn),
            w, [cmd]⟩
        else
          ⟨PyVal.pbool true,
            { w with configLines := config_delete_target fiqn w.configLines }, [cmd]⟩

/-- Public operation add_lun (iscsitarget.py lines 358 to 391).  When the
daemon is down the source returns a one element tuple holding the error
string.  Otherwise it resolves the tid (0 meaning not found), creates the
backing logical volume through lvcreate, attaches it through ietadm, and on
success inserts the Lun line into the configuration file; each failing
command makes the operation return False at that point. -/
def add_lun (w : World) (iqn_base vg name : String) (lun : Nat) (size : String) : OpResult :=
  if w.ietdRunning = false then ⟨PyVal.tup1 ietdDownMsg, w, []⟩
  else
    let fiqn := iqn_base ++ ":" ++ name
    let vn := name ++ "_" ++ toString lun
    let path := "/dev/" ++ vg ++ "/" ++ vn
    match get_tid_from_iqn fiqn w.procVolume with
    | none => ⟨PyVal.raised, w, []⟩
    | some tid =>
      if tid = 0 then ⟨PyVal.pstr (notFoundMsg fiqn), w, []⟩
      else
        let cv := createVolCmd vn size vg
        if w.cmdResults cv ≠ 0 then ⟨PyVal.pbool false, w, [cv]⟩
        else
          let w1 := { w with lvs := w.lvs ++ [path] }
          let al := addLunCmd tid lun path "blockio"
          if w1.cmdResults al ≠ 0 then ⟨PyVal.pbool false, w1, [cv, al]⟩
          else
            ⟨PyVal.pbool true,
              { w1 with configLines := config_add_lun fiqn lun vg name "blockio" w1.configLines },
              [cv, al]⟩

/-- Public operation delete_lun (iscsitarget.py lines 394 to 427).  When the
daemon is down the source returns a one element tuple holding the error
string.  Otherwise it resolves the tid (0 meaning not found), detaches the
LUN through ietadm, removes the Lun line from the configuration file, and
then removes the backing logical volume through lvremove. -/
def delete_lun (w : World) (iqn_base vg name : String) (lun : Nat) : OpResult :=
  if w.ietdRunning = false then ⟨PyVal.tup1 ietdDownMsg, w, []⟩
  else
    let fiqn := iqn_base ++ ":" ++ name
    let vn := name ++ "_" ++ toString lun
    let path := "/dev/" ++ vg ++ "/" ++ vn
    match get_tid_from_iqn fiqn w.procVolume with
    | none => ⟨PyVal.raised, w, []⟩
    | some tid =>
      if tid = 0 then ⟨PyVal.pstr (notFoundMsg fiqn), w, []⟩
      else
        let dl := deleteLunCmd tid lun
        if w.cmdResults dl ≠ 0 then ⟨PyVal.pbool false, w, [dl]⟩
        else
          let w1 := { w with configLines := config_delete_lun fiqn lun w.configLines }
          let dv := deleteVolCmd vn vg
          if w1.cmdResults dv ≠ 0 then ⟨PyVal.pbool false, w1, [dl, dv]⟩
          else
            ⟨PyVal.pbool true, { w1 with lvs := w1.lvs.filter (fun p => p ≠ path) }, [dl, dv]⟩

/- Helper lemmas about the line classifiers and the block rendering. -/

theorem renderConfig_cons (b : Block) (bs : List Block) :
    renderConfig (b :: bs) = b.header :: (b.luns ++ renderConfig bs) := by
  simp [renderConfig, Block.render]

theorem renderConfig_append (as bs : List Block) :
    renderConfig (as ++ bs) = renderConfig as ++ renderConfig bs := by
  simp [renderConfig]

instance (b : Block) : Decidable (WFBlock b) :=
  inferInstanceAs (Decidable (_ ∧ _))

instance (bs : List Block) : Decidable (WFConfig bs) :=
  inferInstanceAs (Decidable (∀ b ∈ bs, WFBlock b))

theorem prefixB_head (p q : Char) (ps qs s : List Char) (hne : (q == p) = false)
    (h : isPrefixB (p :: ps) s = true) : isPrefixB (q :: qs) s = false := by
  cases s with
  | nil => simp [isPrefixB] at h
  | cons c cs =>
    simp only [isPrefixB, Bool.and_eq_true, beq_iff_eq] at h
    obtain ⟨hc, -⟩ := h
    subst hc
    simp [isPrefixB, hne]

theorem lun_not_target (s : String) (h : isLunLine s = true) : isTargetLine s = false := by
  simp only [isLunLine, isTargetLine, lstripStarts] at h ⊢
  have h' : isPrefixB ('L' :: ['u', 'n']) (dropLeadingWs s.toList) = true := h
  exact prefixB_head 'L' 'T' ['u', 'n'] ['a', 'r', 'g', 'e', 't'] _ (by decide) h'

theorem target_not_lun (s : String) (h : isTargetLine s = true) : isLunLine s = false := by
  simp only [isLunLine, isTargetLine, lstripStarts] at h ⊢
  have h' : isPrefixB ('T' :: ['a', 'r', 'g', 'e', 't']) (dropLeadingWs s.toList) = true := h
  exact prefixB_head 'T' 'L' ['a', 'r', 'g', 'e', 't'] ['u', 'n'] _ (by decide) h'

theorem dropUntilTarget_skip (ls r : List String)
    (h : ∀ l ∈ ls, isTargetLine l = false) :
    dropUntilTarget (ls ++ r) = dropUntilTarget r := by
  induction ls with
  | nil => rfl
  | cons x xs ih =>
    have hx := h x (by simp)
    simp [dropUntilTarget, hx]
    exact ih (fun l hl => h l (by simp [hl]))

theorem dropUntilTarget_config (post : List Block) (hwf : WFConfig post) :
    dropUntilTarget (renderConfig post) = renderConfig post := by
  cases post with
  | nil => rfl
  | cons b bs =>
    rw [renderConfig_cons]
    have hb : isTargetLine b.header = true := (hwf b (by simp)).1
    simp [dropUntilTarget, hb]

theorem config_delete_target_skip (fiqn : String) (ls r : List String)
    (h : ∀ l ∈ ls, (isTargetLine l && pyIn fiqn l) = false) :
    config_delete_target fiqn (ls ++ r) = ls ++ config_delete_target fiqn r := by
  induction ls with
  | nil => rfl
  | cons x xs ih =>
    have hx := h x (by simp)
    simp [config_delete_target, hx]
    exact ih (fun l hl => h l (by simp [hl]))

/-- C1: on a well formed configuration file, deleting a target whose block is
the first one whose Target line contains the full iqn removes exactly that
block, its Target line together with the contiguous Lun lines below it, and
leaves every other block unchanged. -/
theorem C1_delete_target_exact_block
    (fiqn : String) (pre post : List Block) (b : Block)
    (hwf : WFConfig (pre ++ b :: post))
    (hpre : ∀ p ∈ pre, pyIn fiqn p.header = false)
    (hb : pyIn fiqn b.header = true) :
    config_delete_target fiqn (renderConfig (pre ++ b :: post))
      = renderConfig (pre ++ post) := by
  induction pre with
  | nil =>
    rw [List.nil_append, List.nil_append, renderConfig_cons]
    have hbt : isTargetLine b.header = true := (hwf b (by simp)).1
    simp only [config_delete_target, hbt, hb, Bool.and_self, if_true]
    have hluns : ∀ l ∈ b.luns, isTargetLine l = false := by
      intro l hl
      exact lun_not_target l ((hwf b (by simp)).2 l hl)
    rw [dropUntilTarget_skip _ _ hluns]
    exact dropUntilTarget_config post (fun p hp => hwf p (by simp [hp]))
  | cons p pre ih =>
    have hwf' : WFConfig (pre ++ b :: post) := fun q hq => hwf q (by simp at hq ⊢; tauto)
    have hp : WFBlock p := hwf p (by simp)
    rw [List.cons_append, renderConfig_cons, List.cons_append, renderConfig_cons]
    have hph : (isTargetLine p.header && pyIn fiqn p.header) = false := by
      rw [hpre p (by simp)]; simp
    simp only [config_delete_target, hph, Bool.false_eq_true, if_false]
    have hskip : ∀ l ∈ p.luns, (isTargetLine l && pyIn fiqn l) = false := by
      intro l hl
      rw [lun_not_target l (hp.2 l hl)]; simp
    rw [config_delete_target_skip _ _ _ hskip,
      ih hwf' (fun q hq => hpre q (by simp [hq])) ]

/-- Witness for C1 on a concrete three block file. -/
theorem C1_delete_target_exact_block_witness :
    config_delete_target "iqn.b:t1"
      (renderConfig
        [Block.mk "Target 1 iqn.b:t0\n" ["\tLun 0 PATH=/dev/vg/z,Type=blockio\n"],
         Block.mk "Target 2 iqn.b:t1\n"
           ["\tLun 0 PATH=/dev/vg/a,Type=blockio\n", "\tLun 1 PATH=/dev/vg/b,Type=blockio\n"],
         Block.mk "Target 3 iqn.b:t2\n" ["\tLun 0 PATH=/dev/vg/c,Type=blockio\n"]])
      = renderConfig
        [Block.mk "Target 1 iqn.b:t0\n" ["\tLun 0 PATH=/dev/vg/z,Type=blockio\n"],
         Block.mk "Target 3 iqn.b:t2\n" ["\tLun 0 PATH=/dev/vg/c,Type=blockio\n"]] :=
  C1_delete_target_exact_block "iqn.b:t1"
    [Block.mk "Target 1 iqn.b:t0\n" ["\tLun 0 PATH=/dev/vg/z,Type=blockio\n"]]
    [Block.mk "Target 3 iqn.b:t2\n" ["\tLun 0 PATH=/dev/vg/c,Type=blockio\n"]]
    (Block.mk "Target 2 iqn.b:t1\n"
      ["\tLun 0 PATH=/dev/vg/a,Type=blockio\n", "\tLun 1 PATH=/dev/vg/b,Type=blockio\n"])
    (by decide) (by decide) (by decide)

theorem delLunLoop_luns (pat : String) (ls r : List String)
    (h : ∀ l ∈ ls, isLunLine l = true) :
    delLunLoop pat (ls ++ r)
      = ls.filter (fun l => !(pyIn pat l)) ++ delLunLoop pat r := by
  induction ls with
  | nil => rfl
  | cons x xs ih =>
    have hx := h x (by simp)
    have ih' := ih (fun l hl => h l (by simp [hl]))
    by_cases hp : pyIn pat x = true
    · simp [delLunLoop, hx, hp, List.filter, ih']
    · simp only [Bool.not_eq_true] at hp
      simp [delLunLoop, hx, hp, List.filter, ih']

theorem delLunLoop_config (pat : String) (post : List Block) (hwf : WFConfig post) :
    delLunLoop pat (renderConfig post) = renderConfig post := by
  cases post with
  | nil => rfl
  | cons b bs =>
    rw [renderConfig_cons]
    have hb : isLunLine b.header = false := target_not_lun b.header (hwf b (by simp)).1
    simp [delLunLoop, hb]

theorem config_delete_lun_skip (fiqn : String) (lun : Nat) (ls r : List String)
    (h : ∀ l ∈ ls, (isTargetLine l && pyIn fiqn l) = false) :
    config_delete_lun fiqn lun (ls ++ r) = ls ++ config_delete_lun fiqn lun r := by
  induction ls with
  | nil => rfl
  | cons x xs ih =>
    have hx := h x (by simp)
    simp [config_delete_lun, hx]
    exact ih (fun l hl => h l (by simp [hl]))

/-- C10: when no Target line of the file contains the full iqn, both config
deletion edits rewrite the file with its original content, a no op rather
than an error. -/
theorem C10_delete_missing_target_noop (fiqn : String) (lun : Nat) (clines : List String)
    (h : ∀ l ∈ clines, isTargetLine l = true → pyIn fiqn l = false) :
    config_delete_target fiqn clines = clines ∧
    config_delete_lun fiqn lun clines = clines := by
  induction clines with
  | nil => exact ⟨rfl, rfl⟩
  | cons x xs ih =>
    have ih' := ih (fun l hl ht => h l (by simp [hl]) ht)
    have hx : (isTargetLine x && pyIn fiqn x) = false := by
      cases ht : isTargetLine x with
      | false => simp
      | true => simp [h x (by simp) ht]
    constructor
    · simp [config_delete_target, hx, ih'.1]
    · simp [config_delete_lun, hx, ih'.2]

/-- Witness for C10 on a concrete file that names other targets only. -/
theorem C10_delete_missing_target_noop_witness :
    config_delete_target "iqn.b:t9"
      ["Target 1 iqn.b:t0\n", "\tLun 0 PATH=/dev/vg/a,Type=blockio\n"]
      = ["Target 1 iqn.b:t0\n", "\tLun 0 PATH=/dev/vg/a,Type=blockio\n"] ∧
    config_delete_lun "iqn.b:t9" 0
      ["Target 1 iqn.b:t0\n", "\tLun 0 PATH=/dev/vg/a,Type=blockio\n"]
      = ["Target 1 iqn.b:t0\n", "\tLun 0 PATH=/dev/vg/a,Type=blockio\n"] :=
  C10_delete_missing_target_noop "iqn.b:t9" 0
    ["Target 1 iqn.b:t0\n", "\tLun 0 PATH=/dev/vg/a,Type=blockio\n"] (by decide)

/-- C2 fails on the code: the source matches Lun lines by the substring test
Lun n in line, so deleting LUN 1 from a target that also holds LUN 10 deletes
the Lun 10 line as well, although its LUN number differs from 1. -/
theorem C2_counterexample :
    config_delete_lun "iqn.b:t" 1
      ["Target 1 iqn.b:t\n", "\tLun 1 PATH=/dev/vg/t_1,Type=blockio\n",
       "\tLun 10 PATH=/dev/vg/t_10,Type=blockio\n"]
      = ["Target 1 iqn.b:t\n"] ∧
    "\tLun 10 PATH=/dev/vg/t_10,Type=blockio\n" ∉
      config_delete_lun "iqn.b:t" 1
        ["Target 1 iqn.b:t\n", "\tLun 1 PATH=/dev/vg/t_1,Type=blockio\n",
         "\tLun 10 PATH=/dev/vg/t_10,Type=blockio\n"] := by decide

/-- C2, amended: within the first block whose Target line contains the full
iqn, the LUN deletion edit removes exactly the Lun lines whose text contains
the substring Lun n (not only the line whose LUN number equals n); the Target
line, the Lun lines of the block without that substring, and every other
block are preserved unchanged. -/
theorem C2_delete_lun_substring_match
    (fiqn : String) (lun : Nat) (pre post : List Block) (b : Block)
    (hwf : WFConfig (pre ++ b :: post))
    (hpre : ∀ p ∈ pre, pyIn fiqn p.header = false)
    (hb : pyIn fiqn b.header = true) :
    config_delete_lun fiqn lun (renderConfig (pre ++ b :: post))
      = renderConfig (pre ++
          Block.mk b.header
            (b.luns.filter (fun l => !(pyIn ("Lun " ++ toString lun) l))) :: post) := by
  induction pre with
  | nil =>
    rw [List.nil_append, List.nil_append, renderConfig_cons, renderConfig_cons]
    have hbt : isTargetLine b.header = true := (hwf b (by simp)).1
    simp only [config_delete_lun, hbt, hb, Bool.and_self, if_true]
    rw [delLunLoop_luns _ _ _ ((hwf b (by simp)).2),
      delLunLoop_config _ post (fun p hp => hwf p (by simp [hp]))]
  | cons p pre ih =>
    have hwf' : WFConfig (pre ++ b :: post) := fun q hq => hwf q (by simp at hq ⊢; tauto)
    have hp : WFBlock p := hwf p (by simp)
    rw [List.cons_append, renderConfig_cons, List.cons_append, renderConfig_cons]
    have hph : (isTargetLine p.header && pyIn fiqn p.header) = false := by
      rw [hpre p (by simp)]; simp
    simp only [config_delete_lun, hph, Bool.false_eq_true, if_false]
    have hskip : ∀ l ∈ p.luns, (isTargetLine l && pyIn fiqn l) = false := by
      intro l hl
      rw [lun_not_target l (hp.2 l hl)]; simp
    rw [config_delete_lun_skip _ _ _ _ hskip,
      ih hwf' (fun q hq => hpre q (by simp [hq]))]

/-- Witness for the amended C2 on a concrete file holding LUN 1 and LUN 10. -/
theorem C2_delete_lun_substring_match_witness :
    config_delete_lun "iqn.b:t" 1
      (renderConfig
        [Block.mk "Target 1 iqn.b:t\n"
          ["\tLun 1 PATH=/dev/vg/t_1,Type=blockio\n",
           "\tLun 2 PATH=/dev/vg/t_2,Type=blockio\n",
           "\tLun 10 PATH=/dev/vg/t_10,Type=blockio\n"],
         Block.mk "Target 2 iqn.b:u\n" ["\tLun 1 PATH=/dev/vg/u_1,Type=blockio\n"]])
      = renderConfig
        [Block.mk "Target 1 iqn.b:t\n" ["\tLun 2 PATH=/dev/vg/t_2,Type=blockio\n"],
         Block.mk "Target 2 iqn.b:u\n" ["\tLun 1 PATH=/dev/vg/u_1,Type=blockio\n"]] :=
  C2_delete_lun_substring_match "iqn.b:t" 1 []
    [Block.mk "Target 2 iqn.b:u\n" ["\tLun 1 PATH=/dev/vg/u_1,Type=blockio\n"]]
    (Block.mk "Target 1 iqn.b:t\n"
      ["\tLun 1 PATH=/dev/vg/t_1,Type=blockio\n",
       "\tLun 2 PATH=/dev/vg/t_2,Type=blockio\n",
       "\tLun 10 PATH=/dev/vg/t_10,Type=blockio\n"])
    (by decide) (by decide) (by decide)

theorem insertLun_luns (nlun : String) (ls r : List String)
    (h : ∀ l ∈ ls, isLunLine l = true) :
    insertLun nlun (ls ++ r) = ls ++ insertLun nlun r := by
  induction ls with
  | nil => rfl
  | cons x xs ih =>
    have hx := h x (by simp)
    simp [insertLun, hx]
    exact ih (fun l hl => h l (by simp [hl]))

theorem insertLun_config (nlun : String) (post : List Block) (hwf : WFConfig post) :
    insertLun nlun (renderConfig post) = nlun :: renderConfig post := by
  cases post with
  | nil => rfl
  | cons b bs =>
    rw [renderConfig_cons]
    have hb : isLunLine b.header = false := target_not_lun b.header (hwf b (by simp)).1
    simp [insertLun, hb]

theorem config_add_lun_skip (fiqn : String) (lun : Nat) (vg name iotype : String)
    (ls r : List String)
    (h : ∀ l ∈ ls, (isTargetLine l && pyIn fiqn l) = false) :
    config_add_lun fiqn lun vg name iotype (ls ++ r)
      = ls ++ config_add_lun fiqn lun vg name iotype r := by
  induction ls with
  | nil => rfl
  | cons x xs ih =>
    have hx := h x (by simp)
    simp [config_add_lun, hx]
    exact ih (fun l hl => h l (by simp [hl]))

theorem config_add_lun_absent (fiqn : String) (lun : Nat) (vg name iotype : String)
    (clines : List String)
    (h : ∀ l ∈ clines, (isTargetLine l && pyIn fiqn l) = false) :
    config_add_lun fiqn lun vg name iotype clines
      = clines ++ ["Target " ++ fiqn ++ "\n", lunLine lun vg name iotype] := by
  induction clines with
  | nil => rfl
  | cons x xs ih =>
    have hx := h x (by simp)
    simp [config_add_lun, hx]
    exact ih (fun l hl => h l (by simp [hl]))

/-- C3: on a well formed configuration file, when a Target line contains the
full iqn the new Lun line is inserted right after the last Lun line of the
first such block (right after the Target line when the block has no Lun
lines), keeping the block contiguous and every other line unchanged; when no
Target line contains the full iqn, a new two line block, one Target line
followed by one Lun line, is appended at the end of the file. -/
theorem C3_add_lun_placement (fiqn : String) (lun : Nat) (vg name iotype : String) :
    (∀ (pre post : List Block) (b : Block),
      WFConfig (pre ++ b :: post) →
      (∀ p ∈ pre, pyIn fiqn p.header = false) →
      pyIn fiqn b.header = true →
      config_add_lun fiqn lun vg name iotype (renderConfig (pre ++ b :: post))
        = renderConfig (pre ++ Block.mk b.header (b.luns ++ [lunLine lun vg name iotype]) :: post))
    ∧
    (∀ clines : List String,
      (∀ l ∈ clines, (isTargetLine l && pyIn fiqn l) = false) →
      config_add_lun fiqn lun vg name iotype clines
        = clines ++ ["Target " ++ fiqn ++ "\n", lunLine lun vg name iotype]) := by
  constructor
  · intro pre post b hwf hpre hb
    induction pre with
    | nil =>
      rw [List.nil_append, List.nil_append, renderConfig_cons, renderConfig_cons]
      have hbt : isTargetLine b.header = true := (hwf b (by simp)).1
      simp only [config_add_lun, hbt, hb, Bool.and_self, if_true]
      rw [insertLun_luns _ _ _ ((hwf b (by simp)).2),
        insertLun_config _ post (fun p hp => hwf p (by simp [hp]))]
      simp
    | cons p pre ih =>
      have hwf' : WFConfig (pre ++ b :: post) := fun q hq => hwf q (by simp at hq ⊢; tauto)
      have hp : WFBlock p := hwf p (by simp)
      rw [List.cons_append, renderConfig_cons, List.cons_append, renderConfig_cons]
      have hph : (isTargetLine p.header && pyIn fiqn p.header) = false := by
        rw [hpre p (by simp)]; simp
      simp only [config_add_lun, hph, Bool.false_eq_true, if_false]
      have hskip : ∀ l ∈ p.luns, (isTargetLine l && pyIn fiqn l) = false := by
        intro l hl
        rw [lun_not_target l (hp.2 l hl)]; simp
      rw [config_add_lun_skip _ _ _ _ _ _ _ hskip,
        ih hwf' (fun q hq => hpre q (by simp [hq]))]
  · exact config_add_lun_absent fiqn lun vg name iotype

/-- Witness for C3: insertion after the last Lun line of the matched block,
and creation of a fresh two line block when the target is absent. -/
theorem C3_add_lun_placement_witness :
    config_add_lun "iqn.b:t" 2 "vg" "t" "blockio"
      (renderConfig
        [Block.mk "Target 1 iqn.b:t\n"
          ["\tLun 0 PATH=/dev/vg/t_0,Type=blockio\n", "\tLun 1 PATH=/dev/vg/t_1,Type=blockio\n"],
         Block.mk "Target 2 iqn.b:u\n" ["\tLun 0 PATH=/dev/vg/u_0,Type=blockio\n"]])
      = renderConfig
        [Block.mk "Target 1 iqn.b:t\n"
          ["\tLun 0 PATH=/dev/vg/t_0,Type=blockio\n", "\tLun 1 PATH=/dev/vg/t_1,Type=blockio\n",
           "\tLun 2 PATH=/dev/vg/t,Type=blockio\n"],
         Block.mk "Target 2 iqn.b:u\n" ["\tLun 0 PATH=/dev/vg/u_0,Type=blockio\n"]] ∧
    config_add_lun "iqn.b:w" 0 "vg" "w" "blockio" ["Target 1 iqn.b:t\n"]
      = ["Target 1 iqn.b:t\n", "Target iqn.b:w\n", "\tLun 0 PATH=/dev/vg/w,Type=blockio\n"] :=
  ⟨(C3_add_lun_placement "iqn.b:t" 2 "vg" "t" "blockio").1 []
      [Block.mk "Target 2 iqn.b:u\n" ["\tLun 0 PATH=/dev/vg/u_0,Type=blockio\n"]]
      (Block.mk "Target 1 iqn.b:t\n"
        ["\tLun 0 PATH=/dev/vg/t_0,Type=blockio\n", "\tLun 1 PATH=/dev/vg/t_1,Type=blockio\n"])
      (by decide) (by decide) (by decide),
   (C3_add_lun_placement "iqn.b:w" 0 "vg" "w" "blockio").2 ["Target 1 iqn.b:t\n"] (by decide)⟩

/-- C9: the Target line appended by the LUN insertion edit when the block is
absent carries no numeric target id, Target followed directly by the full
iqn, while the line written by the target append edit carries the id between
the word Target and the iqn; the two line shapes never coincide. -/
theorem C9_absent_target_line_has_no_tid :
    (∀ (fiqn : String) (lun : Nat) (vg name iotype : String) (clines : List String),
      (∀ l ∈ clines, (isTargetLine l && pyIn fiqn l) = false) →
      config_add_lun fiqn lun vg name iotype clines
        = clines ++ ["Target " ++ fiqn ++ "\n", lunLine lun vg name iotype])
    ∧ (∀ (tid : Int) (fiqn : String) (clines : List String),
      config_add_target tid fiqn clines
        = clines ++ ["Target " ++ toString tid ++ " " ++ fiqn ++ "\n"])
    ∧ (∀ (tid : Int) (fiqn : String),
      "Target " ++ fiqn ++ "\n" ≠ "Target " ++ toString tid ++ " " ++ fiqn ++ "\n") := by
  refine ⟨config_add_lun_absent, fun tid fiqn clines => rfl, fun tid fiqn h => ?_⟩
  have hl := congrArg String.length h
  have hone : (" " : String).length = 1 := rfl
  simp only [String.length_append, hone] at hl
  omega

/-- Witness for C9 at a concrete target and tid. -/
theorem C9_absent_target_line_has_no_tid_witness :
    config_add_lun "iqn.b:w" 0 "vg" "w" "blockio" ["Target 1 iqn.b:t\n"]
      = ["Target 1 iqn.b:t\n", "Target iqn.b:w\n", "\tLun 0 PATH=/dev/vg/w,Type=blockio\n"] ∧
    config_add_target 5 "iqn.b:w" ["Target 1 iqn.b:t\n"]
      = ["Target 1 iqn.b:t\n", "Target 5 iqn.b:w\n"] ∧
    "Target iqn.b:w\n" ≠ "Target 5 iqn.b:w\n" :=
  ⟨C9_absent_target_line_has_no_tid.1 "iqn.b:w" 0 "vg" "w" "blockio"
      ["Target 1 iqn.b:t\n"] (by decide),
   C9_absent_target_line_has_no_tid.2.1 5 "iqn.b:w" ["Target 1 iqn.b:t\n"],
   C9_absent_target_line_has_no_tid.2.2 5 "iqn.b:w"⟩

theorem le_foldl_max (ts : List Int) (t : Int) :
    t ≤ ts.foldl max t ∧ ∀ x ∈ ts, x ≤ ts.foldl max t := by
  induction ts generalizing t with
  | nil => simp
  | cons a as ih =>
    refine ⟨le_trans (le_max_left t a) (ih (max t a)).1, ?_⟩
    intro x hx
    rcases List.mem_cons.mp hx with hxa | hxs
    · subst hxa
      exact le_trans (le_max_right t x) (ih (max t x)).1
    · exact (ih (max t a)).2 x hxs

/-- C4: whenever the tid carrying lines of the volume table all parse, the
freshly allocated target id is strictly greater than every tid present in the
table, being the maximum plus one, and equals 1 when the table carries no
tid. -/
theorem C4_get_new_tid_fresh (lines : List String) (tids : List Int)
    (h : (tidTokenLines lines).mapM parseTid = some tids) :
    ∃ r, get_new_tid lines = some r ∧ (∀ t ∈ tids, t < r) ∧ (tids = [] → r = 1) := by
  cases tids with
  | nil =>
    refine ⟨1, ?_, by simp, fun _ => rfl⟩
    unfold get_new_tid
    rw [h]
  | cons t ts =>
    refine ⟨ts.foldl max t + 1, ?_, ?_, by simp⟩
    · unfold get_new_tid
      rw [h]
    · intro x hx
      rcases List.mem_cons.mp hx with hxt | hxs
      · subst hxt
        exact lt_of_le_of_lt (le_foldl_max ts x).1 (by omega)
      · exact lt_of_le_of_lt ((le_foldl_max ts t).2 x hxs) (by omega)

/-- Witness for C4 on a concrete volume table with tids 1 and 3. -/
theorem C4_get_new_tid_fresh_witness :
    ∃ r, get_new_tid
        ["tid:1 name:iqn.b:t0\n", "\tlun:0 state:0 iotype:blockio path:/dev/vg/a\n",
         "tid:3 name:iqn.b:t1\n"] = some r ∧
      (∀ t ∈ ([1, 3] : List Int), t < r) ∧ (([1, 3] : List Int) = [] → r = 1) :=
  C4_get_new_tid_fresh
    ["tid:1 name:iqn.b:t0\n", "\tlun:0 state:0 iotype:blockio path:/dev/vg/a\n",
     "tid:3 name:iqn.b:t1\n"] [1, 3] (by decide)

/-- C5 fails on the code: with the daemon down, add_target, add_lun and
delete_lun return their error message through a return statement with a
trailing comma, so the returned value is a one element tuple holding the
string, not the string itself; only delete_target returns the bare string. -/
theorem C5_counterexample :
    PyVal.isStr (add_target ⟨false, [], [], fun _ => 0, []⟩ "iqn.b" "t").ret = false ∧
    PyVal.isStr (add_lun ⟨false, [], [], fun _ => 0, []⟩ "iqn.b" "vg" "t" 0 "1G").ret = false ∧
    PyVal.isStr (delete_lun ⟨false, [], [], fun _ => 0, []⟩ "iqn.b" "vg" "t" 0).ret = false :=
  ⟨rfl, rfl, rfl⟩

/-- C5, amended: with the daemon down, every one of the four mutating public
operations invokes no state changing external command, leaves the world (in
particular the configuration file) unchanged, and returns the descriptive
error message, delete_target as the bare string and add_target, add_lun and
delete_lun as a one element tuple holding the string. -/
theorem C5_daemon_down_no_effect (w : World) (b n vg : String) (lun : Nat) (size : String)
    (h : w.ietdRunning = false) :
    add_target w b n = ⟨PyVal.tup1 ietdDownMsg, w, []⟩ ∧
    delete_target w b n vg = ⟨PyVal.pstr ietdDownMsg, w, []⟩ ∧
    add_lun w b vg n lun size = ⟨PyVal.tup1 ietdDownMsg, w, []⟩ ∧
    delete_lun w b vg n lun = ⟨PyVal.tup1 ietdDownMsg, w, []⟩ := by
  simp [add_target, delete_target, add_lun, delete_lun, h]

/-- Witness for the amended C5 at a concrete stopped world. -/
theorem C5_daemon_down_no_effect_witness :
    add_target ⟨false, [], ["Target 1 iqn.b:t\n"], fun _ => 0, []⟩ "iqn.b" "t"
      = ⟨PyVal.tup1 ietdDownMsg, ⟨false, [], ["Target 1 iqn.b:t\n"], fun _ => 0, []⟩, []⟩ ∧
    delete_target ⟨false, [], ["Target 1 iqn.b:t\n"], fun _ => 0, []⟩ "iqn.b" "t" "vg"
      = ⟨PyVal.pstr ietdDownMsg, ⟨false, [], ["Target 1 iqn.b:t\n"], fun _ => 0, []⟩, []⟩ ∧
    add_lun ⟨false, [], ["Target 1 iqn.b:t\n"], fun _ => 0, []⟩ "iqn.b" "vg" "t" 0 "1G"
      = ⟨PyVal.tup1 ietdDownMsg, ⟨false, [], ["Target 1 iqn.b:t\n"], fun _ => 0, []⟩, []⟩ ∧
    delete_lun ⟨false, [], ["Target 1 iqn.b:t\n"], fun _ => 0, []⟩ "iqn.b" "vg" "t" 0
      = ⟨PyVal.tup1 ietdDownMsg, ⟨false, [], ["Target 1 iqn.b:t\n"], fun _ => 0, []⟩, []⟩ :=
  C5_daemon_down_no_effect ⟨false, [], ["Target 1 iqn.b:t\n"], fun _ => 0, []⟩
    "iqn.b" "t" "vg" 0 "1G" rfl

/-- C6: with the daemon running, when the ietadm target creation command
exits non zero, add_target returns the descriptive error string, the world,
and in particular the configuration file, is left unchanged, and the ietadm
call was the only command invoked; the config append happens only after the
command succeeds. -/
theorem C6_add_target_cmd_failure (w : World) (b n : String) (tid : Int)
    (hrun : w.ietdRunning = true)
    (htid : get_new_tid w.procVolume = some tid)
    (hfail : w.cmdResults (addTargetCmd tid (b ++ ":" ++ n)) ≠ 0) :
    add_target w b n
      = ⟨PyVal.pstr ("Error: ietadm(" ++ toString (w.cmdResults (addTargetCmd tid (b ++ ":" ++ n)))
            ++ ") Could not create iSCSI Target " ++ (b ++ ":" ++ n)),
          w, [addTargetCmd tid (b ++ ":" ++ n)]⟩ := by
  simp [add_target, hrun, htid, hfail]

/-- Witness for C6: a world whose every command exits with code 1. -/
theorem C6_add_target_cmd_failure_witness :
    add_target ⟨true, [], ["Target 1 iqn.b:t\n"], fun _ => 1, []⟩ "iqn.b" "u"
      = ⟨PyVal.pstr "Error: ietadm(1) Could not create iSCSI Target iqn.b:u",
          ⟨true, [], ["Target 1 iqn.b:t\n"], fun _ => 1, []⟩,
          [addTargetCmd 1 "iqn.b:u"]⟩ :=
  C6_add_target_cmd_failure ⟨true, [], ["Target 1 iqn.b:t\n"], fun _ => 1, []⟩
    "iqn.b" "u" 1 rfl (by decide) (by decide)

/-- C7: with the daemon running and the creation command succeeding, the full
name used by add_target is the base identifier, a colon, and the short name,
and the configuration file gains exactly the line Target tid fiqn at its
end. -/
theorem C7_add_target_fiqn_and_config_line (w : World) (b n : String) (tid : Int)
    (hrun : w.ietdRunning = true)
    (htid : get_new_tid w.procVolume = some tid)
    (hok : w.cmdResults (addTargetCmd tid (b ++ ":" ++ n)) = 0) :
    (add_target w b n).ret = PyVal.pair n (b ++ ":" ++ n) ∧
    (add_target w b n).world.configLines
      = w.configLines ++ ["Target " ++ toString tid ++ " " ++ (b ++ ":" ++ n) ++ "\n"] := by
  constructor
  · simp [add_target, hrun, htid, hok]
  · simp [add_target, hrun, htid, hok, config_add_target, targetLine]

/-- Witness for C7 at the concrete base iqn.2007-12.net.enpraxis and short
name test: the full name is iqn.2007-12.net.enpraxis:test and the appended
config line is Target 1 iqn.2007-12.net.enpraxis:test. -/
theorem C7_add_target_fiqn_and_config_line_witness :
    (add_target ⟨true, [], [], fun _ => 0, []⟩ "iqn.2007-12.net.enpraxis" "test").ret
      = PyVal.pair "test" "iqn.2007-12.net.enpraxis:test" ∧
    (add_target ⟨true, [], [], fun _ => 0, []⟩ "iqn.2007-12.net.enpraxis" "test").world.configLines
      = ["Target 1 iqn.2007-12.net.enpraxis:test\n"] :=
  C7_add_target_fiqn_and_config_line ⟨true, [], [], fun _ => 0, []⟩
    "iqn.2007-12.net.enpraxis" "test" 1 rfl (by decide) rfl

theorem ietadm_starts_deleteTargetCmd (tid : Int) :
    isPrefixB "ietadm".toList (deleteTargetCmd tid).toList = true := rfl

/-- C8: delete_target never requests removal of a backing logical volume:
for every world, the set of existing logical volumes after delete_target is
the one before it, and every external command the operation invokes is an
ietadm invocation, so no lvremove command is ever issued, even though the
list of attached volume paths is computed along the way. -/
theorem C8_delete_target_keeps_volumes (w : World) (b n vg : String) :
    (delete_target w b n vg).world.lvs = w.lvs ∧
    ((delete_target w b n vg).cmds.all
      (fun c => isPrefixB "ietadm".toList c.toList)) = true := by
  by_cases h : w.ietdRunning = false
  · simp [delete_target, h]
  · cases htid : get_tid_from_iqn (b ++ ":" ++ n) w.procVolume with
    | none => simp [delete_target, h, htid]
    | some tid =>
      by_cases h0 : tid = 0
      · simp [delete_target, h, htid, h0]
      · by_cases hc : w.cmdResults (deleteTargetCmd tid) = 0
        · simp [delete_target, h, htid, h0, hc]
          exact ietadm_starts_deleteTargetCmd tid
        · simp [delete_target, h, htid, h0, hc]
          exact ietadm_starts_deleteTargetCmd tid
